import Mathlib

/-!
Shallow embedding of `src/oauth/common/lib/oauth-cache.js`, the volos
cache-aside OAuth decorator.  The decorator wraps an abstract key-value
store with TTL support and an abstract authorization target.  Every
operation is modelled as a function producing a `Run`: the list of
observable events (store calls, target calls, callback invocations, in
program order), the resulting store contents, and the exception, if
any, that escapes the operation after its callback has returned.

Modelling conventions:
* JS epoch-millisecond timestamps and OAuth numeric fields are
  rationals; JSON numbers round-trip exactly at the scales involved.
* An absent JS field (`undefined`) and a `NaN`-valued field are both
  modelled as `none`; no claim below distinguishes the two, and a
  JS truthiness test maps both to false.
* The store (the volos `memory` cache) is a finite map from string
  keys to stored values, modelled as an association list in which
  `setData` replaces any previous binding.  `StoredVal.jsonRec t` is
  the `JSON.stringify` serialization of a token record (JSON
  round-trips these records exactly, which is why the constructor
  rejects stores configured with an `encoding` option), while
  `StoredVal.rawStr s` is a stored plain string on which `JSON.parse`
  fails.  Store failures are injected through the `failGet` and
  `failSet` key lists: `get` reports an error for a key in `failGet`,
  and `set` throws for a key in `failSet`.
* The target is an oracle of pure functions following the
  `(error, reply)` callback convention; the contract assumed of the
  store's `get` and of every target operation is that each invokes its
  callback exactly once.
-/

/-- An error value as observed by the decorator: a structured error
carrying an `errorCode` (built by `errorWithCode` in the source), a
`JSON.parse` failure, a `TypeError` raised by a property access on
`undefined`, an error reported by the store's `get`, an exception
thrown by the store's `set`, or an opaque target-service error. -/
inductive JsError where
  | withCode (errorCode : String)
  | parseError
  | typeError
  | storeGetFail (key : String)
  | storeSetFail (key : String)
  | targetFail (msg : String)
  deriving DecidableEq, Repr

/-- Source `errorWithCode`: builds an `Error` whose `errorCode`
property carries the machine-readable code. -/
def errorWithCode (code : String) : JsError := .withCode code

/-- The `errorCode` property of an error (`undefined` on errors not
built by `errorWithCode`). -/
def JsError.errorCodeOf : JsError → Option String
  | .withCode c => some c
  | _ => none

/-- The token-record fields the decorator reads.  Real records carry
arbitrary further provider fields, but the decorator never inspects
them, so they are not modelled.  `cached_at` is the internal
epoch-millisecond stamp added by `cacheToken` and stripped by
`getCachedToken`. -/
structure TokenRecord where
  access_token : Option String
  expires_in : Option ℚ
  scope : Option String
  cached_at : Option ℚ
  deriving DecidableEq, Repr

/-- A value held by the store: either the JSON serialization of a
token record (parsing succeeds and yields the record back), or a plain
string that is not valid JSON (parsing throws), which is also the form
in which `cacheApiKey` stores an API key. -/
inductive StoredVal where
  | jsonRec (t : TokenRecord)
  | rawStr (s : String)
  deriving DecidableEq, Repr

/-- JS truthiness of a store reply: the empty string is falsy, every
other stored value is truthy. -/
def StoredVal.truthy : StoredVal → Bool
  | .jsonRec _ => true
  | .rawStr s => s != ""

/-- The `token` argument of `cacheToken`: `undefined` (a failed target
call passes no reply), a pre-serialized string, or a structured
record. -/
inductive TokenVal where
  | undef
  | str (s : String)
  | obj (t : TokenRecord)
  deriving DecidableEq, Repr

/-- The `token` argument of `getCachedToken` and `deleteCachedToken`:
a raw key string or a token-shaped object. -/
inductive TokOrKey where
  | str (s : String)
  | obj (t : TokenRecord)
  deriving DecidableEq, Repr

/-- The `requiredScopes` argument of `verifyToken`: `null`/absent, a
space-separated string, or an already-split array. -/
inductive ReqScopes where
  | null
  | strVal (s : String)
  | arr (l : List String)
  deriving DecidableEq, Repr

/-- JS truthiness of `requiredScopes`: `null` and the empty string are
falsy; every array, including the empty one, is truthy. -/
def ReqScopes.truthy : ReqScopes → Bool
  | .null => false
  | .strVal s => s != ""
  | .arr _ => true

/-- A value passed as the second argument of a completion callback. -/
inductive CbArg where
  | str (s : String)
  | obj (t : TokenRecord)
  | boolVal (b : Bool)
  deriving DecidableEq, Repr

/-- Observable events of one decorator operation, in program order:
store calls, target calls, and completion-callback invocations. -/
inductive Event where
  | getCall (key : String)
  | setCall (key : String) (value : StoredVal) (ttlOpt : Option ℚ)
  | delCall (key : String)
  | targetVerifyToken (token : String) (scopes : ReqScopes)
  | targetVerifyApiKey (apiKey : String) (req : String)
  | targetInvalidateToken (key : String)
  | targetCall (opName : String)
  | cbCall (err : Option JsError) (arg : Option CbArg)
  deriving DecidableEq, Repr

/-- The store: its contents, its configured maximum TTL ceiling
(`cache.options.ttl`, milliseconds), and the injected failure sets. -/
structure Store where
  data : List (String × StoredVal)
  ttl : ℚ
  failGet : List String
  failSet : List String
  deriving DecidableEq, Repr

/-- The outcome of one decorator operation: its event trace, the store
contents it leaves behind, and the exception, if any, that escapes
after the callback has returned. -/
structure Run where
  events : List Event
  data : List (String × StoredVal)
  exn : Option JsError
  deriving DecidableEq, Repr

/-- Remove every binding of `key` (the store is a map: keys are
unique, so deletion removes the key outright). -/
def eraseKey (key : String) (d : List (String × StoredVal)) :
    List (String × StoredVal) :=
  d.filter (fun p => p.1 != key)

/-- `cache.set`: bind `key` to `v`, replacing any previous binding. -/
def setData (key : String) (v : StoredVal) (d : List (String × StoredVal)) :
    List (String × StoredVal) :=
  (key, v) :: eraseKey key d

/-- Node `url.parse`, projected onto the token fields the decorator
reads.  A legacy `Url` object carries only URL components
(`protocol`, `host`, `pathname`, `query`, `hash`, ...), so its
`access_token`, `expires_in`, `scope` and `cached_at` properties are
always `undefined`, whatever the input string. -/
def urlParse (_s : String) : TokenRecord :=
  { access_token := none, expires_in := none, scope := none, cached_at := none }

/-- The tail of source `cacheToken` after the string/object dispatch,
operating on the parsed token `t`; `original` is the caller-visible
`result` alias.  Mirrors lines 31-46 of the source: bail out uncached
when there is no `access_token`; otherwise stamp `cached_at`,
serialize, derive the TTL option (`expires_in` seconds times 1000,
capped at the store ceiling; a falsy `expires_in` yields no option),
store, and call back with `result` — which, for an object token, is
the very object just stamped (the source mutates it in place).  A
`set` throw is caught and reported through the callback. -/
def cacheParsed (st : Store) (original : CbArg) (t : TokenRecord) (now : ℚ) : Run :=
  match t.access_token with
  | none => ⟨[.cbCall none (some original)], st.data, none⟩
  | some key =>
      let stamped : TokenRecord := { t with cached_at := some now }
      let opts : Option ℚ :=
        match t.expires_in with
        | some e => if e != 0 then some (min (e * 1000) st.ttl) else none
        | none => none
      let result : CbArg :=
        match original with
        | .str s => .str s
        | _ => .obj stamped
      if key ∈ st.failSet then
        ⟨[.setCall key (.jsonRec stamped) opts,
          .cbCall (some (.storeSetFail key)) none], st.data, none⟩
      else
        ⟨[.setCall key (.jsonRec stamped) opts, .cbCall none (some result)],
          setData key (.jsonRec stamped) st.data, none⟩

/-- Source `OAuthCache.prototype.cacheToken`.  A target error is
propagated untouched; a string token is re-parsed with `url.parse`;
an `undefined` token makes the `token.access_token` access throw a
`TypeError`, which the surrounding try/catch reports through the
callback. -/
def cacheToken (st : Store) (err : Option JsError) (token : TokenVal) (now : ℚ) : Run :=
  match err with
  | some e => ⟨[.cbCall (some e) none], st.data, none⟩
  | none =>
      match token with
      | .str s => cacheParsed st (.str s) (urlParse s) now
      | .obj t => cacheParsed st (.obj t) t now
      | .undef => ⟨[.cbCall (some .typeError) none], st.data, none⟩

/-- Key resolution shared by `getCachedToken` and `deleteCachedToken`:
the string itself, or the object's `access_token` field (a record
lacking one yields the JS property key `undefined`; no claim
exercises that case). -/
def keyOf : TokOrKey → String
  | .str s => s
  | .obj t => t.access_token.getD "undefined"

/-- The store-callback stage of source `getCachedToken` before the
caller's callback fires: its events, the single `(err, reply)` pair
the callback receives, and the exception escaping afterwards.  On a
hit, `expires_in` is recomputed as the stored value minus the elapsed
seconds since `cached_at`, and `cached_at` is deleted.  On a stored
value that fails `JSON.parse`, the callback receives the parse error,
and — the catch block not returning — the subsequent
`token.cached_at` access on the undefined local throws a `TypeError`
once the callback has returned. -/
def getCachedTokenCore (st : Store) (tok : TokOrKey) (now : ℚ) :
    List Event × Option JsError × Option TokenRecord × Option JsError :=
  let key := keyOf tok
  if key ∈ st.failGet then ([.getCall key], some (.storeGetFail key), none, none)
  else
    match st.data.lookup key with
    | none => ([.getCall key], none, none, none)
    | some (.rawStr _) => ([.getCall key], some .parseError, none, some .typeError)
    | some (.jsonRec t) =>
        let newExp : Option ℚ :=
          match t.expires_in, t.cached_at with
          | some e, some c => some (e - (now - c) / 1000)
          | _, _ => none
        ([.getCall key], none,
          some { t with expires_in := newExp, cached_at := none }, none)

/-- Source `OAuthCache.prototype.getCachedToken` as a public
operation: the core stage followed by the caller's callback. -/
def getCachedToken (st : Store) (tok : TokOrKey) (now : ℚ) : Run :=
  let o := getCachedTokenCore st tok now
  ⟨o.1 ++ [.cbCall o.2.1 (o.2.2.1.map CbArg.obj)], st.data, o.2.2.2⟩

/-- Source `OAuthCache.prototype.deleteCachedToken`: fire-and-forget
`cache.delete` under the same key resolution. -/
def deleteCachedToken (st : Store) (tok : TokOrKey) :
    List Event × List (String × StoredVal) :=
  let key := keyOf tok
  ([.delCall key], eraseKey key st.data)

/-- The `options` hash of `invalidateToken`; `clientId`,
`clientSecret` and `tokenTypeHint` are passed through opaquely and
never read by the decorator, so only `token` is modelled. -/
structure InvOptions where
  token : TokOrKey
  deriving DecidableEq, Repr

/-- The abstract authorization target, as an oracle of pure functions
following the `(error, reply)` callback convention.  The opaque
`options` hashes of the issuance operations are modelled as opaque
strings. -/
structure Target where
  createTokenClientCredentials : String → Option JsError × TokenVal
  createTokenPasswordCredentials : String → Option JsError × TokenVal
  createTokenAuthorizationCode : String → Option JsError × TokenVal
  createTokenImplicitGrant : String → Option JsError × TokenVal
  refreshToken : String → Option JsError × TokenVal
  generateAuthorizationCode : String → Option JsError × Option CbArg
  invalidateToken : InvOptions → Option JsError × Option CbArg
  verifyToken : String → ReqScopes → Except JsError TokenRecord
  verifyApiKey : String → String → Option JsError

/-- Source `OAuthCache.prototype.invalidateToken`: delete the cached
entry for `options.token`, then delegate to the target, whose
`(error, reply)` pair is delivered to the caller's callback
unchanged. -/
def invalidateToken (st : Store) (tg : Target) (opts : InvOptions) : Run :=
  let key := keyOf opts.token
  let r := tg.invalidateToken opts
  ⟨[.delCall key, .targetInvalidateToken key, .cbCall r.1 r.2],
    eraseKey key st.data, none⟩

/-- Helper for `jsSplitSpace`: walk the characters, cutting at each
space; the accumulator holds the current segment reversed. -/
def splitSpaceAux (cs : List Char) (acc : List Char) : List String :=
  match cs with
  | [] => [String.mk acc.reverse]
  | c :: rest =>
      if c = ' ' then String.mk acc.reverse :: splitSpaceAux rest []
      else splitSpaceAux rest (c :: acc)

/-- JS `s.split(' ')` with the single-space separator used by the
source: cuts at every space and keeps empty segments (so
`"".split(' ')` is `[""]`). -/
def jsSplitSpace (s : String) : List String := splitSpaceAux s.data []

/-- Scope normalization in source `verifyToken`: an array is used
as-is, a string is split on single spaces (`null` is unreachable
there, the check being guarded by truthiness). -/
def normalizeScopes : ReqScopes → List String
  | .arr l => l
  | .strVal s => jsSplitSpace s
  | .null => []

/-- Granted scopes of a cached record: the split of a truthy `scope`
field, empty otherwise. -/
def grantedScopes (t : TokenRecord) : List String :=
  match t.scope with
  | some s => if s != "" then jsSplitSpace s else []
  | none => []

/-- Underscore's `_.difference(xs, ys)`: the elements of `xs` not
contained in `ys`. -/
def underscoreDifference (xs ys : List String) : List String :=
  xs.filter (fun x => !(ys.contains x))

/-- Source `OAuthCache.prototype.verifyToken` (the token argument is a
string at every call site modelled here).  The continuation branches
on `if (reply)` only: a missing reply — whether from a miss, a store
error, or a parse failure — falls to the target-delegation branch.
On a hit with truthy `requiredScopes`, a non-empty difference against
the granted scopes fails with the `invalid_scope` error.  On the miss
branch, a target error is propagated uncached; on target success the
reply's `access_token` is stamped with the original token string and
the result routed through `cacheToken`. -/
def verifyToken (st : Store) (tg : Target) (token : String) (rs : ReqScopes)
    (now : ℚ) : Run :=
  let o := getCachedTokenCore st (.str token) now
  let cont : Run :=
    match o.2.2.1 with
    | some reply =>
        if rs.truthy then
          if (underscoreDifference (normalizeScopes rs) (grantedScopes reply)).length > 0 then
            ⟨[.cbCall (some (errorWithCode "invalid_scope")) none], st.data, none⟩
          else ⟨[.cbCall none (some (.obj reply))], st.data, none⟩
        else ⟨[.cbCall none (some (.obj reply))], st.data, none⟩
    | none =>
        match tg.verifyToken token rs with
        | .error e => ⟨[.targetVerifyToken token rs, .cbCall (some e) none], st.data, none⟩
        | .ok reply =>
            let r := cacheToken st none (.obj { reply with access_token := some token }) now
            ⟨.targetVerifyToken token rs :: r.events, r.data, r.exn⟩
  ⟨o.1 ++ cont.events, cont.data, o.2.2.2⟩

/-- The store-write stage of source `cacheApiKey`: the key is the
apiKey under the fixed `apiKey:` namespace prefix, the value is the
apiKey itself, and no TTL/options argument is passed; a `set` throw
is caught and reported as the error. -/
def cacheApiKeyCore (st : Store) (apiKey : String) :
    List Event × Option JsError × Option String × List (String × StoredVal) :=
  let key := "apiKey:" ++ apiKey
  if key ∈ st.failSet then
    ([.setCall key (.rawStr apiKey) none], some (.storeSetFail key), none, st.data)
  else
    ([.setCall key (.rawStr apiKey) none], none, some apiKey,
      setData key (.rawStr apiKey) st.data)

/-- Source `OAuthCache.prototype.cacheApiKey` as a public operation. -/
def cacheApiKey (st : Store) (apiKey : String) : Run :=
  let c := cacheApiKeyCore st apiKey
  ⟨c.1 ++ [.cbCall c.2.1 (c.2.2.1.map CbArg.str)], c.2.2.2, none⟩

/-- The store-callback stage of source `getCachedApiKey`: a store
error is propagated; a falsy reply (absent, or the stored empty
string) is a miss and calls back with no arguments; a truthy reply
calls back with the original apiKey. -/
def getCachedApiKeyCore (st : Store) (apiKey : String) :
    List Event × Option JsError × Option String :=
  let key := "apiKey:" ++ apiKey
  if key ∈ st.failGet then ([.getCall key], some (.storeGetFail key), none)
  else
    match st.data.lookup key with
    | none => ([.getCall key], none, none)
    | some v => if v.truthy then ([.getCall key], none, some apiKey)
                else ([.getCall key], none, none)

/-- Source `OAuthCache.prototype.getCachedApiKey` as a public
operation. -/
def getCachedApiKey (st : Store) (apiKey : String) : Run :=
  let o := getCachedApiKeyCore st apiKey
  ⟨o.1 ++ [.cbCall o.2.1 (o.2.2.map CbArg.str)], st.data, none⟩

/-- Source `OAuthCache.prototype.verifyApiKey`: on `err || reply` the
caller's callback immediately receives `(err, !!reply)`; otherwise the
target is invoked with the original apiKey and request, a target
error is propagated, and on target success the key is cached before
the callback reports `(null, !!reply)` for the apiKey echoed by
`cacheApiKey`. -/
def verifyApiKey (st : Store) (tg : Target) (apiKey : String) (req : String) : Run :=
  let o := getCachedApiKeyCore st apiKey
  let replyTruthy := (o.2.2.map (fun s => s != "")).getD false
  let cont : Run :=
    if o.2.1.isSome || replyTruthy then
      ⟨[.cbCall o.2.1 (some (.boolVal replyTruthy))], st.data, none⟩
    else
      match tg.verifyApiKey apiKey req with
      | some e => ⟨[.targetVerifyApiKey apiKey req, .cbCall (some e) none], st.data, none⟩
      | none =>
          let c := cacheApiKeyCore st apiKey
          let fin : Event :=
            match c.2.1 with
            | some e => .cbCall (some e) none
            | none =>
                .cbCall none (some (.boolVal ((c.2.2.1.map (fun s => s != "")).getD false)))
          ⟨.targetVerifyApiKey apiKey req :: (c.1 ++ [fin]), c.2.2.2, none⟩
  ⟨o.1 ++ cont.events, cont.data, none⟩

/-- Source `createTokenClientCredentials`: delegate to the target and
route the result through `cacheToken`. -/
def createTokenClientCredentials (st : Store) (tg : Target) (options : String)
    (now : ℚ) : Run :=
  let p := tg.createTokenClientCredentials options
  let r := cacheToken st p.1 p.2 now
  ⟨.targetCall "createTokenClientCredentials" :: r.events, r.data, r.exn⟩

/-- Source `createTokenPasswordCredentials`: delegate and route
through `cacheToken`. -/
def createTokenPasswordCredentials (st : Store) (tg : Target) (options : String)
    (now : ℚ) : Run :=
  let p := tg.createTokenPasswordCredentials options
  let r := cacheToken st p.1 p.2 now
  ⟨.targetCall "createTokenPasswordCredentials" :: r.events, r.data, r.exn⟩

/-- Source `createTokenAuthorizationCode`: delegate and route through
`cacheToken`. -/
def createTokenAuthorizationCode (st : Store) (tg : Target) (options : String)
    (now : ℚ) : Run :=
  let p := tg.createTokenAuthorizationCode options
  let r := cacheToken st p.1 p.2 now
  ⟨.targetCall "createTokenAuthorizationCode" :: r.events, r.data, r.exn⟩

/-- Source `createTokenImplicitGrant`: delegate and route through
`cacheToken`. -/
def createTokenImplicitGrant (st : Store) (tg : Target) (options : String)
    (now : ℚ) : Run :=
  let p := tg.createTokenImplicitGrant options
  let r := cacheToken st p.1 p.2 now
  ⟨.targetCall "createTokenImplicitGrant" :: r.events, r.data, r.exn⟩

/-- Source `refreshToken`: delegate and route through `cacheToken`. -/
def refreshToken (st : Store) (tg : Target) (options : String) (now : ℚ) : Run :=
  let p := tg.refreshToken options
  let r := cacheToken st p.1 p.2 now
  ⟨.targetCall "refreshToken" :: r.events, r.data, r.exn⟩

/-- Source `generateAuthorizationCode`: a pure pass-through — the
target's callback pair goes straight to the caller and nothing is
cached. -/
def generateAuthorizationCode (st : Store) (tg : Target) (options : String) : Run :=
  let p := tg.generateAuthorizationCode options
  ⟨[.targetCall "generateAuthorizationCode", .cbCall p.1 p.2], st.data, none⟩

/-- Recognizer for completion-callback events. -/
def isCbCall : Event → Bool
  | .cbCall _ _ => true
  | _ => false

/-- Number of completion-callback invocations in a run. -/
def cbCount (r : Run) : Nat := r.events.countP isCbCall

/-- A concrete well-behaved target used to instantiate theorems: every
operation succeeds, `verifyToken` grants the `read` scope. -/
def tgOk : Target where
  createTokenClientCredentials := fun _ => (none, .obj ⟨some "cc", some 60, none, none⟩)
  createTokenPasswordCredentials := fun _ => (none, .obj ⟨some "pc", some 60, none, none⟩)
  createTokenAuthorizationCode := fun _ => (none, .obj ⟨some "ac", some 60, none, none⟩)
  createTokenImplicitGrant := fun _ => (none, .str "https://cb.example.com/#access_token=ig")
  refreshToken := fun _ => (none, .obj ⟨some "rt", some 60, none, none⟩)
  generateAuthorizationCode := fun _ => (none, some (.str "https://cb.example.com/?code=c"))
  invalidateToken := fun _ => (none, none)
  verifyToken := fun _ _ => .ok ⟨none, some 60, some "read", none⟩
  verifyApiKey := fun _ _ => none

/-- A target that rejects every token as invalid, used to instantiate
the revocation scenario. -/
def tgInvalid : Target :=
  { tgOk with verifyToken := fun _ _ => .error (.targetFail "invalid_token") }

/-! ## Store lemmas -/

/-- A fresh binding is found by lookup. -/
theorem lookup_setData_self (key : String) (v : StoredVal)
    (d : List (String × StoredVal)) : (setData key v d).lookup key = some v := by
  simp [setData, List.lookup]

/-- After erasing a key, lookup on it misses. -/
theorem lookup_eraseKey_self (key : String) (d : List (String × StoredVal)) :
    (eraseKey key d).lookup key = none := by
  induction d with
  | nil => rfl
  | cons p rest ih =>
      rcases p with ⟨a, b⟩
      simp only [eraseKey, List.filter_cons] at *
      by_cases h : a = key
      · simpa [h] using ih
      · have hne : (a != key) = true := bne_iff_ne.mpr h
        have hkey : (key == a) = false := beq_eq_false_iff_ne.mpr (Ne.symm h)
        simp [hne, List.lookup, hkey, ih]

/-! ## C1: residual lifetime on cache hit -/

/-- C1: a token record cached with `expires_in = T` at time `t0` and
retrieved via `getCachedToken` at time `t1 > t0` (before store
eviction) comes back with `expires_in = T - (t1 - t0)/1000` — the
residual lifetime, times in milliseconds and the field in seconds —
and without the internal `cached_at` field. -/
theorem getCachedToken_residual_lifetime
    (st : Store) (t : TokenRecord) (key : String) (T t0 t1 : ℚ)
    (hak : t.access_token = some key) (hexp : t.expires_in = some T)
    (hset : key ∉ st.failSet) (hget : key ∉ st.failGet) (ht : t0 < t1) :
    getCachedToken { st with data := (cacheToken st none (.obj t) t0).data }
        (.str key) t1
      = ⟨[.getCall key,
          .cbCall none (some (.obj { t with
            expires_in := some (T - (t1 - t0) / 1000), cached_at := none }))],
         (cacheToken st none (.obj t) t0).data, none⟩ := by
  have hdata : (cacheToken st none (.obj t) t0).data
      = setData key (.jsonRec { t with cached_at := some t0 }) st.data := by
    simp [cacheToken, cacheParsed, hak, hset]
  simp [getCachedToken, getCachedTokenCore, keyOf, hdata, hget,
    lookup_setData_self, hexp]

/-- C1 witness: a token with a 100-second lifetime cached at 5 ms and
read at 9 ms comes back with `100 - 4/1000` seconds remaining and no
`cached_at` field. -/
theorem getCachedToken_residual_lifetime_witness :
    getCachedToken { (⟨[], 60000, [], []⟩ : Store) with
        data := (cacheToken ⟨[], 60000, [], []⟩ none
          (.obj ⟨some "k", some 100, some "read", none⟩) 5).data } (.str "k") 9
      = ⟨[.getCall "k",
          .cbCall none (some (.obj ⟨some "k", some (100 - (9 - 5) / 1000),
            some "read", none⟩))],
         (cacheToken ⟨[], 60000, [], []⟩ none
           (.obj ⟨some "k", some 100, some "read", none⟩) 5).data, none⟩ :=
  getCachedToken_residual_lifetime ⟨[], 60000, [], []⟩
    ⟨some "k", some 100, some "read", none⟩ "k" 100 5 9 rfl rfl
    (by decide) (by decide) (by norm_num)

/-! ## C3: TTL derivation and clamping -/

/-- C3 counterexample: a token carrying `expires_in = 0` is cached,
yet the store's `set` receives no TTL option at all, not the claimed
`min(0 * 1000, ttl ceiling)` — JS truthiness treats the `0` the same
as an absent field. -/
theorem cacheToken_zero_expires_in_no_ttl :
    (cacheToken ⟨[], 60000, [], []⟩ none
        (.obj ⟨some "k", some 0, none, none⟩) 7).events
      = [.setCall "k" (.jsonRec ⟨some "k", some 0, none, some 7⟩) none,
         .cbCall none (some (.obj ⟨some "k", some 0, none, some 7⟩))]
    ∧ (none : Option ℚ) ≠ some (min ((0 : ℚ) * 1000) 60000) :=
  ⟨rfl, by simp⟩

/-- C3 (amended): for a token carrying a truthy (nonzero)
`expires_in`, the TTL passed to the store's `set` is
`min(expires_in * 1000, ttl ceiling)`; for a token whose `expires_in`
is absent — or the falsy `0` — the entry is stored with no TTL
option. -/
theorem cacheToken_ttl_clamped
    (st : Store) (t : TokenRecord) (key : String) (e now : ℚ)
    (hak : t.access_token = some key) :
    (t.expires_in = some e → e ≠ 0 →
      (cacheToken st none (.obj t) now).events.head?
        = some (.setCall key (.jsonRec { t with cached_at := some now })
            (some (min (e * 1000) st.ttl))))
    ∧ ((t.expires_in = none ∨ t.expires_in = some 0) →
      (cacheToken st none (.obj t) now).events.head?
        = some (.setCall key (.jsonRec { t with cached_at := some now }) none)) := by
  constructor
  · intro hexp hne
    unfold cacheToken cacheParsed
    by_cases h : key ∈ st.failSet <;> simp [hak, hexp, hne, h]
  · rintro (hexp | hexp) <;>
    · unfold cacheToken cacheParsed
      by_cases h : key ∈ st.failSet <;> simp [hak, hexp, h]

/-- C3 witness: a declared lifetime of 7200 s, exceeding the 1000 ms
store ceiling, is stored with TTL `min(7200 * 1000, 1000)`. -/
theorem cacheToken_ttl_clamped_witness :
    (cacheToken ⟨[], 1000, [], []⟩ none
        (.obj ⟨some "k", some 7200, none, none⟩) 3).events.head?
      = some (.setCall "k" (.jsonRec ⟨some "k", some 7200, none, some 3⟩)
          (some (min ((7200 : ℚ) * 1000) 1000))) :=
  (cacheToken_ttl_clamped ⟨[], 1000, [], []⟩ ⟨some "k", some 7200, none, none⟩
    "k" 7200 3 rfl).1 rfl (by norm_num)

/-! ## C6: string tokens through cacheToken -/

/-- C6 counterexample: the pre-serialized implicit-grant token string
`https://cb.example.com/#access_token=abc&expires_in=3600` carries the
access token `abc`, yet `cacheToken` performs no store write and
caches nothing under the key `abc` — the URL-parsed form of a string
has no `access_token` field. -/
theorem cacheToken_string_token_not_cached :
    (cacheToken ⟨[], 60000, [], []⟩ none
        (.str "https://cb.example.com/#access_token=abc&expires_in=3600") 7)
      = ⟨[.cbCall none
            (some (.str "https://cb.example.com/#access_token=abc&expires_in=3600"))],
         [], none⟩
    ∧ (cacheToken ⟨[], 60000, [], []⟩ none
        (.str "https://cb.example.com/#access_token=abc&expires_in=3600") 7).data.lookup "abc"
      = none :=
  ⟨rfl, rfl⟩

/-- C6 (amended): a string token is parsed with Node `url.parse`
first, but the parsed URL object never carries an `access_token`
field, so every string token passes through `cacheToken` uncached:
the callback receives the original string and the store is
untouched. -/
theorem cacheToken_string_passthrough (st : Store) (s : String) (now : ℚ) :
    cacheToken st none (.str s) now
      = ⟨[.cbCall none (some (.str s))], st.data, none⟩ := rfl

/-! ## C8: tokens without access_token pass through uncached -/

/-- C8: a successful target result whose token has no `access_token`
is passed to the callback unchanged (in particular no `cached_at` is
stamped on it) and the store's `set` is never invoked. -/
theorem cacheToken_no_access_token_uncached
    (st : Store) (t : TokenRecord) (now : ℚ) (h : t.access_token = none) :
    cacheToken st none (.obj t) now
      = ⟨[.cbCall none (some (.obj t))], st.data, none⟩ := by
  simp [cacheToken, cacheParsed, h]

/-- C8 witness: an authorization-code-style response with a lifetime
and scope but no bearer token is returned unchanged with no store
write. -/
theorem cacheToken_no_access_token_uncached_witness :
    cacheToken ⟨[], 60000, [], []⟩ none
        (.obj ⟨none, some 300, some "read", none⟩) 7
      = ⟨[.cbCall none (some (.obj ⟨none, some 300, some "read", none⟩))], [], none⟩ :=
  cacheToken_no_access_token_uncached ⟨[], 60000, [], []⟩
    ⟨none, some 300, some "read", none⟩ 7 rfl

/-! ## C10: API-key entries are stored without a TTL -/

/-- C10: every `cacheApiKey` call invokes the store's `set` with key
`"apiKey:" ++ apiKey`, the apiKey itself as value, and no TTL/options
argument — unlike token entries, API-key entries never receive an
explicit TTL, so their expiry is governed by the store's default
policy. -/
theorem cacheApiKey_set_no_ttl (st : Store) (apiKey : String) :
    (cacheApiKey st apiKey).events.head?
      = some (.setCall ("apiKey:" ++ apiKey) (.rawStr apiKey) none) := by
  unfold cacheApiKey cacheApiKeyCore
  by_cases h : ("apiKey:" ++ apiKey) ∈ st.failSet <;> simp [h]

/-- The scope field — hence the granted-scope set — of a cache-hit
reply is unchanged by the `expires_in`/`cached_at` update. -/
theorem grantedScopes_irrel (t : TokenRecord) (x c : Option ℚ) :
    grantedScopes { t with expires_in := x, cached_at := c } = grantedScopes t := rfl

/-! ## C2: scope mismatch on a cache hit is authoritative -/

/-- C2: a `verifyToken` call that hits a cached token and is given a
truthy (non-empty) `requiredScopes` — array or space-separated
string — containing a scope `r` not among the cached record's granted
scopes fails with an error whose `errorCode` is `invalid_scope`, and
the target's `verifyToken` is never invoked. -/
theorem verifyToken_missing_scope_rejected
    (st : Store) (tg : Target) (key : String) (t : TokenRecord)
    (rs : ReqScopes) (r : String) (now : ℚ)
    (hget : key ∉ st.failGet) (hfound : st.data.lookup key = some (.jsonRec t))
    (htr : rs.truthy = true) (hr : r ∈ normalizeScopes rs)
    (hmiss : r ∉ grantedScopes t) :
    (verifyToken st tg key rs now).events
      = [.getCall key, .cbCall (some (errorWithCode "invalid_scope")) none]
    ∧ (errorWithCode "invalid_scope").errorCodeOf = some "invalid_scope"
    ∧ ∀ tok rs2,
        Event.targetVerifyToken tok rs2 ∉ (verifyToken st tg key rs now).events := by
  have hdiff :
      0 < (underscoreDifference (normalizeScopes rs) (grantedScopes t)).length := by
    have hmem : r ∈ underscoreDifference (normalizeScopes rs) (grantedScopes t) := by
      refine List.mem_filter.mpr ⟨hr, ?_⟩
      simpa using hmiss
    exact List.length_pos.mpr (List.ne_nil_of_mem hmem)
  have hev : (verifyToken st tg key rs now).events
      = [.getCall key, .cbCall (some (errorWithCode "invalid_scope")) none] := by
    unfold verifyToken getCachedTokenCore keyOf
    simp [hget, hfound, htr, grantedScopes_irrel, hdiff]
  refine ⟨hev, rfl, ?_⟩
  rw [hev]
  intro tok rs2
  simp

/-- C2 witness: a cached token granted only `read`, checked against
the required scopes `["read", "write"]`, is rejected with
`invalid_scope` without touching the target. -/
theorem verifyToken_missing_scope_rejected_witness :
    (verifyToken ⟨[("T", .jsonRec ⟨some "T", some 60, some "read", none⟩)],
        1000, [], []⟩ tgOk "T" (.arr ["read", "write"]) 5).events
      = [.getCall "T", .cbCall (some (errorWithCode "invalid_scope")) none]
    ∧ (errorWithCode "invalid_scope").errorCodeOf = some "invalid_scope"
    ∧ ∀ tok rs2, Event.targetVerifyToken tok rs2
        ∉ (verifyToken ⟨[("T", .jsonRec ⟨some "T", some 60, some "read", none⟩)],
            1000, [], []⟩ tgOk "T" (.arr ["read", "write"]) 5).events :=
  verifyToken_missing_scope_rejected
    ⟨[("T", .jsonRec ⟨some "T", some 60, some "read", none⟩)], 1000, [], []⟩
    tgOk "T" ⟨some "T", some 60, some "read", none⟩ (.arr ["read", "write"])
    "write" 5 (by decide) rfl rfl (by decide) (by decide)

/-- On a store whose lookup of the token misses (whether or not the
store's `get` additionally reports an error), `verifyToken` takes the
miss branch, delegates to the target, and propagates a target
error uncached. -/
theorem verifyToken_miss_target_error
    (st : Store) (tg : Target) (token : String) (rs : ReqScopes) (now : ℚ)
    (e : JsError) (hl : st.data.lookup token = none)
    (he : tg.verifyToken token rs = .error e) :
    (verifyToken st tg token rs now).events
      = [.getCall token, .targetVerifyToken token rs, .cbCall (some e) none] := by
  unfold verifyToken getCachedTokenCore
  by_cases h : token ∈ st.failGet
  · simp [keyOf, h, he]
  · simp [keyOf, h, hl, he]

/-! ## C7: invalidation deletes before delegating -/

/-- C7: `invalidateToken` deletes the cached entry for the token
before the target's invalidation is dispatched (the delete event
precedes the target event, and the store visible from that point has
no entry for the key), the target's `(error, reply)` pair is delivered
to the callback unchanged, and a `verifyToken` on the same token
issued after `invalidateToken` returns cannot observe a cache hit:
assuming the target reports the token as invalid, it takes the miss
path, delegates, and propagates the target's error. -/
theorem invalidateToken_delete_before_target
    (st : Store) (tg : Target) (opts : InvOptions) (rs : ReqScopes) (now : ℚ) :
    (invalidateToken st tg opts).events
      = [.delCall (keyOf opts.token), .targetInvalidateToken (keyOf opts.token),
         .cbCall (tg.invalidateToken opts).1 (tg.invalidateToken opts).2]
    ∧ (invalidateToken st tg opts).data.lookup (keyOf opts.token) = none
    ∧ ∀ e, tg.verifyToken (keyOf opts.token) rs = .error e →
        (verifyToken { st with data := (invalidateToken st tg opts).data } tg
            (keyOf opts.token) rs now).events
          = [.getCall (keyOf opts.token),
             .targetVerifyToken (keyOf opts.token) rs, .cbCall (some e) none] := by
  refine ⟨rfl, ?_, ?_⟩
  · exact lookup_eraseKey_self (keyOf opts.token) st.data
  · intro e he
    exact verifyToken_miss_target_error _ tg (keyOf opts.token) rs now e
      (lookup_eraseKey_self (keyOf opts.token) st.data) he

/-- C7 witness: with the token `T` cached and a target rejecting every
token, invalidation deletes `T` first, passes the target reply
through, and the follow-up verification misses and reports the
target's error. -/
theorem invalidateToken_delete_before_target_witness :
    (invalidateToken ⟨[("T", .jsonRec ⟨some "T", some 60, some "read", none⟩)],
        1000, [], []⟩ tgInvalid ⟨.str "T"⟩).events
      = [.delCall (keyOf (.str "T")), .targetInvalidateToken (keyOf (.str "T")),
         .cbCall (tgInvalid.invalidateToken ⟨.str "T"⟩).1
           (tgInvalid.invalidateToken ⟨.str "T"⟩).2]
    ∧ (invalidateToken ⟨[("T", .jsonRec ⟨some "T", some 60, some "read", none⟩)],
        1000, [], []⟩ tgInvalid ⟨.str "T"⟩).data.lookup (keyOf (.str "T")) = none
    ∧ (verifyToken { (⟨[("T", .jsonRec ⟨some "T", some 60, some "read", none⟩)],
          1000, [], []⟩ : Store) with
          data := (invalidateToken ⟨[("T", .jsonRec ⟨some "T", some 60,
            some "read", none⟩)], 1000, [], []⟩ tgInvalid ⟨.str "T"⟩).data }
          tgInvalid (keyOf (.str "T")) .null 5).events
        = [.getCall (keyOf (.str "T")), .targetVerifyToken (keyOf (.str "T")) .null,
           .cbCall (some (.targetFail "invalid_token")) none] := by
  obtain ⟨h1, h2, h3⟩ := invalidateToken_delete_before_target
    ⟨[("T", .jsonRec ⟨some "T", some 60, some "read", none⟩)], 1000, [], []⟩
    tgInvalid ⟨.str "T"⟩ .null 5
  exact ⟨h1, h2, h3 (.targetFail "invalid_token") rfl⟩

/-! ## C5: store errors during verifyToken -/

/-- C5 counterexample: with the store's `get` failing on token `T` and
a target that verifies it successfully, `verifyToken` delegates to the
target and delivers the target's success to the caller — the store
error is neither propagated nor does it prevent delegation. -/
theorem verifyToken_store_error_swallowed :
    (verifyToken ⟨[], 1000, ["T"], []⟩ tgOk "T" .null 5).events
      = [.getCall "T", .targetVerifyToken "T" .null,
         .setCall "T" (.jsonRec ⟨some "T", some 60, some "read", some 5⟩)
           (some (min ((60 : ℚ) * 1000) 1000)),
         .cbCall none (some (.obj ⟨some "T", some 60, some "read", some 5⟩))]
    ∧ Event.cbCall (some (.storeGetFail "T")) none
        ∉ (verifyToken ⟨[], 1000, ["T"], []⟩ tgOk "T" .null 5).events :=
  ⟨rfl, by decide⟩

/-- C5 (amended): when the store's `get` reports an error during
`verifyToken`, the error is swallowed: the `if (reply)` test sees no
reply, so the call proceeds exactly as a cache miss — the target's
`verifyToken` is invoked and its outcome (an error propagated, or a
success routed through `cacheToken`) reaches the caller; the store
error itself never does. -/
theorem verifyToken_store_error_treated_as_miss
    (st : Store) (tg : Target) (token : String) (rs : ReqScopes) (now : ℚ)
    (h : token ∈ st.failGet) :
    (verifyToken st tg token rs now).events
      = .getCall token :: .targetVerifyToken token rs ::
        (match tg.verifyToken token rs with
         | .error e => [.cbCall (some e) none]
         | .ok reply => (cacheToken st none
             (.obj { reply with access_token := some token }) now).events) := by
  unfold verifyToken getCachedTokenCore
  rcases hv : tg.verifyToken token rs with e | reply
  · simp [keyOf, h, hv]
  · simp [keyOf, h, hv]

/-- C5 amended-claim witness at a concrete failing store. -/
theorem verifyToken_store_error_treated_as_miss_witness :
    (verifyToken ⟨[], 1000, ["T"], []⟩ tgOk "T" .null 5).events
      = .getCall "T" :: .targetVerifyToken "T" .null ::
        (match tgOk.verifyToken "T" .null with
         | .error e => [.cbCall (some e) none]
         | .ok reply => (cacheToken ⟨[], 1000, ["T"], []⟩ none
             (.obj { reply with access_token := some "T" }) 5).events) :=
  verifyToken_store_error_treated_as_miss ⟨[], 1000, ["T"], []⟩ tgOk "T" .null 5
    (by decide)

/-! ## C9: verifyApiKey cache-aside behavior -/

/-- `verifyApiKey` on a hit: a truthy stored value under the apiKey's
namespace key yields `(null, true)` immediately, target untouched. -/
theorem verifyApiKey_hit
    (st : Store) (tg : Target) (apiKey req : String) (v : StoredVal)
    (hK : apiKey ≠ "") (hget : ("apiKey:" ++ apiKey) ∉ st.failGet)
    (hfound : st.data.lookup ("apiKey:" ++ apiKey) = some v)
    (htr : v.truthy = true) :
    (verifyApiKey st tg apiKey req).events
      = [.getCall ("apiKey:" ++ apiKey), .cbCall none (some (.boolVal true))] := by
  unfold verifyApiKey getCachedApiKeyCore
  simp [hget, hfound, htr, hK]

/-- C9 counterexample: for the empty API key, the first (miss) call
stores the empty string, which is falsy on retrieval, so the next call
is again a miss — it invokes the target a second time and reports
`(null, false)`, not `(null, true)`. -/
theorem verifyApiKey_empty_key_never_hits :
    (verifyApiKey ⟨[], 1000, [], []⟩ tgOk "" "req").data = [("apiKey:", .rawStr "")]
    ∧ (verifyApiKey ⟨[("apiKey:", .rawStr "")], 1000, [], []⟩ tgOk "" "req").events
        = [.getCall "apiKey:", .targetVerifyApiKey "" "req",
           .setCall "apiKey:" (.rawStr "") none, .cbCall none (some (.boolVal false))]
    ∧ Event.targetVerifyApiKey "" "req"
        ∈ (verifyApiKey ⟨[("apiKey:", .rawStr "")], 1000, [], []⟩ tgOk "" "req").events
    ∧ Event.cbCall none (some (.boolVal false)) ≠ .cbCall none (some (.boolVal true)) :=
  ⟨rfl, rfl, by decide, by decide⟩

/-- C9 (amended): for every non-empty apiKey — the empty key being
stored as a falsy value, it can never hit — `verifyApiKey` behaves
cache-aside: on a store error the callback immediately receives the
error with hit `false` and the target is untouched; on a hit it
immediately receives `(null, true)` and the target is untouched; on a
miss the target is invoked with the original apiKey and request, and
on target success the key is cached (the `set` precedes the callback)
before `(null, true)` is reported, after which a repeat call hits
without invoking the target. -/
theorem verifyApiKey_cache_aside
    (st : Store) (tg : Target) (apiKey req : String) (hK : apiKey ≠ "") :
    (("apiKey:" ++ apiKey) ∈ st.failGet →
      (verifyApiKey st tg apiKey req).events
        = [.getCall ("apiKey:" ++ apiKey),
           .cbCall (some (.storeGetFail ("apiKey:" ++ apiKey))) (some (.boolVal false))])
    ∧ (∀ v : StoredVal, ("apiKey:" ++ apiKey) ∉ st.failGet →
        st.data.lookup ("apiKey:" ++ apiKey) = some v → v.truthy = true →
      (verifyApiKey st tg apiKey req).events
        = [.getCall ("apiKey:" ++ apiKey), .cbCall none (some (.boolVal true))])
    ∧ (("apiKey:" ++ apiKey) ∉ st.failGet →
       st.data.lookup ("apiKey:" ++ apiKey) = none →
       tg.verifyApiKey apiKey req = none →
       ("apiKey:" ++ apiKey) ∉ st.failSet →
      (verifyApiKey st tg apiKey req).events
        = [.getCall ("apiKey:" ++ apiKey), .targetVerifyApiKey apiKey req,
           .setCall ("apiKey:" ++ apiKey) (.rawStr apiKey) none,
           .cbCall none (some (.boolVal true))]
      ∧ (verifyApiKey st tg apiKey req).data
          = setData ("apiKey:" ++ apiKey) (.rawStr apiKey) st.data
      ∧ (verifyApiKey { st with data := (verifyApiKey st tg apiKey req).data }
            tg apiKey req).events
          = [.getCall ("apiKey:" ++ apiKey), .cbCall none (some (.boolVal true))]) := by
  refine ⟨?_, ?_, ?_⟩
  · intro h
    unfold verifyApiKey getCachedApiKeyCore
    simp [h]
  · intro v hget hfound htr
    exact verifyApiKey_hit st tg apiKey req v hK hget hfound htr
  · intro hget hmiss htg hset
    have hdata : (verifyApiKey st tg apiKey req).data
        = setData ("apiKey:" ++ apiKey) (.rawStr apiKey) st.data := by
      unfold verifyApiKey getCachedApiKeyCore cacheApiKeyCore
      simp [hget, hmiss, htg, hset]
    refine ⟨?_, hdata, ?_⟩
    · unfold verifyApiKey getCachedApiKeyCore cacheApiKeyCore
      simp [hget, hmiss, htg, hset, hK]
    · refine verifyApiKey_hit _ tg apiKey req (.rawStr apiKey) hK hget ?_ ?_
      · rw [hdata]
        exact lookup_setData_self _ _ _
      · simpa [StoredVal.truthy] using hK

/-- C9 witness: key `K` on an empty store — the first call misses,
invokes the target once, caches, and reports `(null, true)`; the
repeat call hits without touching the target. -/
theorem verifyApiKey_cache_aside_witness :
    (verifyApiKey ⟨[], 1000, [], []⟩ tgOk "K" "req").events
      = [.getCall "apiKey:K", .targetVerifyApiKey "K" "req",
         .setCall "apiKey:K" (.rawStr "K") none, .cbCall none (some (.boolVal true))]
    ∧ (verifyApiKey ⟨[], 1000, [], []⟩ tgOk "K" "req").data
        = setData "apiKey:K" (.rawStr "K") []
    ∧ (verifyApiKey { (⟨[], 1000, [], []⟩ : Store) with
          data := (verifyApiKey ⟨[], 1000, [], []⟩ tgOk "K" "req").data }
          tgOk "K" "req").events
        = [.getCall "apiKey:K", .cbCall none (some (.boolVal true))] :=
  (verifyApiKey_cache_aside ⟨[], 1000, [], []⟩ tgOk "K" "req" (by decide)).2.2
    (by decide) rfl rfl (by decide)

/-! ## C4: completion callbacks fire exactly once -/

/-- `cacheParsed` invokes the callback exactly once on every path. -/
theorem cbCount_cacheParsed (st : Store) (o : CbArg) (t : TokenRecord) (now : ℚ) :
    cbCount (cacheParsed st o t now) = 1 := by
  unfold cacheParsed cbCount
  rcases h : t.access_token with _ | key
  · simp [isCbCall]
  · by_cases hs : key ∈ st.failSet <;> simp [hs, isCbCall]

/-- `cacheToken` invokes the callback exactly once on every path. -/
theorem cbCount_cacheToken (st : Store) (err : Option JsError) (tv : TokenVal)
    (now : ℚ) : cbCount (cacheToken st err tv now) = 1 := by
  unfold cacheToken
  rcases err with _ | e
  · rcases tv with _ | s | t
    · simp [cbCount, isCbCall]
    · exact cbCount_cacheParsed st (.str s) (urlParse s) now
    · exact cbCount_cacheParsed st (.obj t) t now
  · simp [cbCount, isCbCall]

/-- The store-callback stage of `getCachedToken` performs exactly the
one `get` call before the caller's callback fires. -/
theorem getCachedTokenCore_events (st : Store) (tok : TokOrKey) (now : ℚ) :
    (getCachedTokenCore st tok now).1 = [.getCall (keyOf tok)] := by
  unfold getCachedTokenCore
  by_cases h : keyOf tok ∈ st.failGet
  · simp [h]
  · rcases hl : st.data.lookup (keyOf tok) with _ | v
    · simp [h, hl]
    · rcases v with t | s <;> simp [h, hl]

/-- The store-callback stage of `getCachedApiKey` performs exactly the
one `get` call before the caller's callback fires. -/
theorem getCachedApiKeyCore_events (st : Store) (apiKey : String) :
    (getCachedApiKeyCore st apiKey).1 = [.getCall ("apiKey:" ++ apiKey)] := by
  unfold getCachedApiKeyCore
  by_cases h : ("apiKey:" ++ apiKey) ∈ st.failGet
  · simp [h]
  · rcases hl : st.data.lookup ("apiKey:" ++ apiKey) with _ | v
    · simp [h, hl]
    · by_cases ht : v.truthy <;> simp [h, hl, ht]

/-- The store-write stage of `cacheApiKey` performs exactly the one
`set` call before the caller's callback fires. -/
theorem cacheApiKeyCore_events (st : Store) (apiKey : String) :
    (cacheApiKeyCore st apiKey).1
      = [.setCall ("apiKey:" ++ apiKey) (.rawStr apiKey) none] := by
  unfold cacheApiKeyCore
  by_cases h : ("apiKey:" ++ apiKey) ∈ st.failSet <;> simp [h]

/-- `verifyToken` invokes the callback exactly once on every path. -/
theorem cbCount_verifyToken (st : Store) (tg : Target) (token : String)
    (rs : ReqScopes) (now : ℚ) : cbCount (verifyToken st tg token rs now) = 1 := by
  unfold verifyToken
  rcases hr : (getCachedTokenCore st (.str token) now).2.2.1 with _ | reply
  · rcases hv : tg.verifyToken token rs with e | ok
    · simp [cbCount, hr, hv, getCachedTokenCore_events, isCbCall]
    · have h1 := cbCount_cacheToken st none (.obj { ok with access_token := some token }) now
      simp only [cbCount] at h1
      simp [cbCount, hr, hv, getCachedTokenCore_events, isCbCall, h1]
  · by_cases ht : rs.truthy
    · by_cases hd :
        0 < (underscoreDifference (normalizeScopes rs) (grantedScopes reply)).length <;>
        simp [cbCount, hr, ht, hd, getCachedTokenCore_events, isCbCall]
    · simp [cbCount, hr, ht, getCachedTokenCore_events, isCbCall]

/-- `verifyApiKey` invokes the callback exactly once on every path. -/
theorem cbCount_verifyApiKey (st : Store) (tg : Target) (apiKey req : String) :
    cbCount (verifyApiKey st tg apiKey req) = 1 := by
  unfold verifyApiKey
  by_cases hi : (getCachedApiKeyCore st apiKey).2.1.isSome
      || ((getCachedApiKeyCore st apiKey).2.2.map (fun s => s != "")).getD false
  · simp [cbCount, hi, getCachedApiKeyCore_events, isCbCall]
  · rcases hv : tg.verifyApiKey apiKey req with _ | e
    · rcases hc : (cacheApiKeyCore st apiKey).2.1 with _ | e
      · simp [cbCount, hi, hv, hc, getCachedApiKeyCore_events, cacheApiKeyCore_events,
          isCbCall]
      · simp [cbCount, hi, hv, hc, getCachedApiKeyCore_events, cacheApiKeyCore_events,
          isCbCall]
    · simp [cbCount, hi, hv, getCachedApiKeyCore_events, isCbCall]

/-- C4: every public operation of the decorator invokes its completion
callback exactly once per call — never twice, never zero times —
whatever the store contents, injected store failures, target
behavior, and arguments; in particular (final conjunct) a
`getCachedToken` hit on a stored value whose deserialization fails
reports the parse error through the callback exactly once: the
`TypeError` raised just after on the undefined parse result escapes
the operation but no second callback invocation occurs. -/
theorem callbacks_invoked_exactly_once :
    ∀ (st : Store) (tg : Target) (err : Option JsError) (tv : TokenVal)
      (tok : TokOrKey) (token apiKey req options s : String) (rs : ReqScopes)
      (iopts : InvOptions) (d : List (String × StoredVal)) (q now : ℚ)
      (fs : List String),
    cbCount (cacheToken st err tv now) = 1
    ∧ cbCount (getCachedToken st tok now) = 1
    ∧ cbCount (verifyToken st tg token rs now) = 1
    ∧ cbCount (invalidateToken st tg iopts) = 1
    ∧ cbCount (cacheApiKey st apiKey) = 1
    ∧ cbCount (getCachedApiKey st apiKey) = 1
    ∧ cbCount (verifyApiKey st tg apiKey req) = 1
    ∧ cbCount (createTokenClientCredentials st tg options now) = 1
    ∧ cbCount (createTokenPasswordCredentials st tg options now) = 1
    ∧ cbCount (createTokenAuthorizationCode st tg options now) = 1
    ∧ cbCount (createTokenImplicitGrant st tg options now) = 1
    ∧ cbCount (refreshToken st tg options now) = 1
    ∧ cbCount (generateAuthorizationCode st tg options) = 1
    ∧ getCachedToken ⟨(token, .rawStr s) :: d, q, [], fs⟩ (.str token) now
        = ⟨[.getCall token, .cbCall (some .parseError) none],
           (token, .rawStr s) :: d, some .typeError⟩ := by
  intro st tg err tv tok token apiKey req options s rs iopts d q now fs
  refine ⟨cbCount_cacheToken st err tv now, ?_, cbCount_verifyToken st tg token rs now,
    ?_, ?_, ?_, cbCount_verifyApiKey st tg apiKey req, ?_, ?_, ?_, ?_, ?_, ?_, ?_⟩
  · simp [cbCount, getCachedToken, getCachedTokenCore_events, isCbCall]
  · simp [cbCount, invalidateToken, isCbCall]
  · simp [cbCount, cacheApiKey, cacheApiKeyCore_events, isCbCall]
  · simp [cbCount, getCachedApiKey, getCachedApiKeyCore_events, isCbCall]
  · have h1 := cbCount_cacheToken st (tg.createTokenClientCredentials options).1
      (tg.createTokenClientCredentials options).2 now
    simp only [cbCount] at h1
    simp [cbCount, createTokenClientCredentials, isCbCall, h1]
  · have h1 := cbCount_cacheToken st (tg.createTokenPasswordCredentials options).1
      (tg.createTokenPasswordCredentials options).2 now
    simp only [cbCount] at h1
    simp [cbCount, createTokenPasswordCredentials, isCbCall, h1]
  · have h1 := cbCount_cacheToken st (tg.createTokenAuthorizationCode options).1
      (tg.createTokenAuthorizationCode options).2 now
    simp only [cbCount] at h1
    simp [cbCount, createTokenAuthorizationCode, isCbCall, h1]
  · have h1 := cbCount_cacheToken st (tg.createTokenImplicitGrant options).1
      (tg.createTokenImplicitGrant options).2 now
    simp only [cbCount] at h1
    simp [cbCount, createTokenImplicitGrant, isCbCall, h1]
  · have h1 := cbCount_cacheToken st (tg.refreshToken options).1
      (tg.refreshToken options).2 now
    simp only [cbCount] at h1
    simp [cbCount, refreshToken, isCbCall, h1]
  · simp [cbCount, generateAuthorizationCode, isCbCall]
  · simp [getCachedToken, getCachedTokenCore, keyOf, List.lookup]
